import Mathlib

/-
Shallow embedding of the identity-matching engine of
src/Project/backend/backend.py.

Modelling conventions:
* Similarity values, scores and thresholds are rationals (every IEEE float
  is a rational number); the external float routine
  sklearn.metrics.pairwise.cosine_similarity is modelled as an opaque
  parameter `sim : α → α → ℚ` over an abstract embedding type α, exactly as
  the spec treats the numeric library as an injected capability.
* Embedding vectors, where their arithmetic matters (enrollment
  aggregation), are real vectors `Fin k → ℝ`; np.mean and the
  L2-renormalization are embedded as exact real arithmetic.
* Fallible Python code that returns None is embedded with Option; a broad
  `except` clause that turns any exception into a default value is embedded
  by the branch that produces that default value.
* The pickle gallery (directory of .pickle files) is a list of
  (user_id, profile) pairs; a file whose pickle.load raises is the
  `corrupt` constructor.
-/

/-- Bounding box of a detected face, as built by
`EnhancedCNNFaceRecognizer.detect_faces`: x, y, width, height (Python ints). -/
structure FaceBox where
  x : Int
  y : Int
  w : Int
  h : Int
  deriving DecidableEq

/-- One entry of the list returned by `detect_faces`: the cropped face
pixels (abstract type β), the bounding box and the detector confidence. -/
structure Face (β : Type) where
  face : β
  bbox : FaceBox
  confidence : ℚ
  deriving DecidableEq

/-- Bounding-box area, the key `x['bbox'][2] * x['bbox'][3]` used by both
call sites of Python's `max(faces, key=...)`. -/
def FaceBox.area (b : FaceBox) : Int := b.w * b.h

/-- Python's `max(xs, key=key)` guarded by an emptiness check: returns the
first element whose key is maximal, or none on the empty list. -/
def pyMaxBy {γ : Type} (key : γ → Int) : List γ → Option γ
  | [] => none
  | x :: xs => some (xs.foldl (fun acc y => if key acc < key y then y else acc) x)

/-- The face-selection policy
`max(faces, key=lambda x: x['bbox'][2] * x['bbox'][3])`, used both in
`recognize_user_enhanced` (line 327) and in
`extract_features_from_multiple_images` (line 128); the emptiness guard
(`if not faces`) at both call sites is the `none` case. -/
def selectLargestFace {β : Type} (faces : List (Face β)) : Option (Face β) :=
  pyMaxBy (fun f => f.bbox.area) faces

/-- The dict produced by `extract_features_from_multiple_images`
(lines 147-152) and stored as the pickle of a multi-photo profile. -/
structure TrainingData (α : Type) where
  ensemble_features : α
  individual_features : List α
  num_photos : ℕ
  training_quality : ℚ
  deriving DecidableEq

/-- `self.strict_threshold = 0.75` (backend.py line 49). -/
def strict_threshold : ℚ := 75 / 100

/-- `self.multi_photo_threshold = 0.70` (backend.py line 50). -/
def multi_photo_threshold : ℚ := 70 / 100

/-- `max(individual_similarities) if individual_similarities else 0.0`
(backend.py line 171). -/
def pyMax (l : List ℚ) : ℚ :=
  match l with
  | [] => 0
  | x :: xs => xs.foldl max x

/-- `mean(individual_similarities) if individual_similarities else 0.0`
(backend.py line 172). -/
def pyMean (l : List ℚ) : ℚ :=
  match l with
  | [] => 0
  | _ => l.sum / (l.length : ℚ)

/-- `EnhancedCNNFaceRecognizer.compare_features_advanced` (lines 156-201).
The `None` checks of line 158 are the final match arm; the `except` clause
never fires on well-typed data, so the body is total. -/
def compare_features_advanced {α : Type} (sim : α → α → ℚ)
    (stored_data : Option (TrainingData α)) (unknown_features : Option α) :
    Bool × ℚ :=
  match stored_data, unknown_features with
  | some d, some u =>
    let ensemble_similarity := sim d.ensemble_features u
    let individual_similarities := d.individual_features.map (fun f => sim f u)
    let best_individual_similarity := pyMax individual_similarities
    let avg_individual_similarity := pyMean individual_similarities
    let quality_weight := min d.training_quality 1
    let final_score :=
      (ensemble_similarity * (4 / 10) + best_individual_similarity * (3 / 10) +
        avg_individual_similarity * (3 / 10)) * quality_weight
    let threshold :=
      if d.num_photos ≥ 3 then multi_photo_threshold else strict_threshold
    (decide (final_score ≥ threshold), final_score)
  | _, _ => (false, 0)

/-- `EnhancedCNNFaceRecognizer.compare_features_simple` (lines 203-213).
`thresholdArg = none` models a call with the default `threshold=None`, which
line 206 replaces by `strict_threshold`. A `None` feature vector makes
`cosine_similarity` raise; the broad `except` of line 211 then returns
`(False, 0.0)` — that is the final match arm here. -/
def compare_features_simple {α : Type} (sim : α → α → ℚ)
    (features1 features2 : Option α) (thresholdArg : Option ℚ) : Bool × ℚ :=
  let threshold := thresholdArg.getD strict_threshold
  match features1, features2 with
  | some f1, some f2 => (decide (sim f1 f2 ≥ threshold), sim f1 f2)
  | _, _ => (false, 0)

/-- A stored pickle as seen by the gallery scan (lines 337-357): a load
failure (`corrupt`), an old single-embedding pickle (`legacy`), or a
multi-photo dict carrying an `ensemble_features` field (`multi`). -/
inductive StoredProfile (α : Type) where
  | corrupt
  | legacy (features : α)
  | multi (data : TrainingData α)
  deriving DecidableEq

/-- Whether `pickle.load` succeeds on the stored file. -/
def isLoadable {α : Type} : StoredProfile α → Bool
  | .corrupt => false
  | _ => true

/-- The comparison the scan loop body performs on one loadable profile
(lines 344-349): the advanced form for dicts carrying `ensemble_features`,
the simple form (with its default threshold) otherwise. A corrupt profile
is never compared; giving it the neutral result `(false, 0)` makes the loop
step below ignore it, exactly like the `except: continue` of line 357. -/
def profileResult {α : Type} (sim : α → α → ℚ) (u : α) :
    StoredProfile α → Bool × ℚ
  | .corrupt => (false, 0)
  | .multi d => compare_features_advanced sim (some d) (some u)
  | .legacy f => compare_features_simple sim (some f) (some u) none

/-- One iteration of the scan loop (lines 351-353):
`if is_match and score > best_score: best_score, best_match := score, file[:-7]`. -/
def scanStep {α : Type} (sim : α → α → ℚ) (u : α)
    (acc : Option String × ℚ) (entry : String × StoredProfile α) :
    Option String × ℚ :=
  let r := profileResult sim u entry.2
  if r.1 = true ∧ acc.2 < r.2 then (some entry.1, r.2) else acc

/-- The gallery scan of `recognize_user_enhanced` (lines 333-357), starting
from `best_match = None, best_score = 0.0`. -/
def scanGallery {α : Type} (sim : α → α → ℚ) (u : α)
    (gallery : List (String × StoredProfile α)) : Option String × ℚ :=
  gallery.foldl (scanStep sim u) (none, 0)

/-- `return best_match if best_match else 'unknown_person'` (line 360);
Python truthiness also sends an empty-string match to the sentinel. -/
def recognizeResult : Option String → String
  | some k => if k = "" then "unknown_person" else k
  | none => "unknown_person"

/-- `recognize_user_enhanced` (lines 318-360). Face detection and feature
extraction are the injected capabilities `detect` and `extract`. -/
def recognize_user_enhanced {ι β α : Type} (detect : ι → List (Face β))
    (extract : β → Option α) (sim : α → α → ℚ)
    (gallery : List (String × StoredProfile α)) (img : ι) : String :=
  match selectLargestFace (detect img) with
  | none => "no_persons_found"
  | some largest_face =>
    match extract largest_face.face with
    | none => "no_persons_found"
    | some unknown_features =>
      recognizeResult (scanGallery sim unknown_features gallery).1

/-- Embedding vectors where their arithmetic matters: `Fin k → ℝ`. -/
abbrev Vec (k : ℕ) := Fin k → ℝ

/-- `np.linalg.norm` of a vector: the L2 norm. -/
noncomputable def l2norm {k : ℕ} (v : Vec k) : ℝ :=
  Real.sqrt (∑ i, v i * v i)

/-- `v / np.linalg.norm(v)`: re-normalization to unit length (line 144). -/
noncomputable def l2normalize {k : ℕ} (v : Vec k) : Vec k :=
  fun i => v i / l2norm v

/-- `np.mean(all_features, axis=0)` (line 142): the pointwise arithmetic
mean of a list of vectors. -/
noncomputable def npMean {k : ℕ} (l : List (Vec k)) : Vec k :=
  fun i => (l.map (fun v => v i)).sum / (l.length : ℝ)

/-- The features collected by the loop of lines 120-136: one embedding per
image whose largest detected face yields a feature vector; images with no
face or a failed extraction are skipped. -/
def extractedFeatures {ι β : Type} {k : ℕ} (detect : ι → List (Face β))
    (extract : β → Option (Vec k)) (images : List ι) : List (Vec k) :=
  images.filterMap (fun image =>
    match selectLargestFace (detect image) with
    | none => none
    | some largest_face => extract largest_face.face)

/-- `EnhancedCNNFaceRecognizer.extract_features_from_multiple_images`
(lines 115-154). The loop counter `valid_images` is incremented exactly
when a feature vector is appended to `all_features`, so it equals
`len(all_features)` at the end of the loop. -/
noncomputable def extract_features_from_multiple_images {ι β : Type} {k : ℕ}
    (detect : ι → List (Face β)) (extract : β → Option (Vec k))
    (images : List ι) : Option (TrainingData (Vec k)) × ℕ :=
  let all_features := extractedFeatures detect extract images
  let valid_images := all_features.length
  if all_features.length < 2 then (none, valid_images)
  else
    (some ⟨l2normalize (npMean all_features), all_features,
        all_features.length, (all_features.length : ℚ) / (images.length : ℚ)⟩,
      valid_images)

/-- One row of db/users.csv, restricted to the fields the register flow
reads back (`user_id`, `name`, `email`). -/
structure UserRow where
  user_id : String
  name : String
  email : String
  deriving DecidableEq

/-- A /register request after JSON parsing: the form fields the embedded
flow uses and the submitted images; `none` stands for an image that
`decode_image` fails to decode. `email` is taken post `.strip().lower()`. -/
structure RegisterRequest (ι : Type) where
  name : String
  email : String
  images : List (Option ι)

/-- The persistent state the register flow touches: the pickle gallery
(db/pickles), the saved photo file names (db/photos, extension elided) and
the users CSV. -/
structure BackendState (α : Type) where
  pickles : List (String × StoredProfile α)
  photos : List String
  users : List UserRow

/-- The response of the /register route (lines 565-667), one constructor
per early return. -/
inductive RegisterResult where
  | errNoImages
  | errTooFewImages (received : ℕ)
  | errEmailExists
  | errInvalidImage
  | errDuplicateFace (userName : String)
  | errInsufficientFaces (valid total : ℕ)
  | errSaveFailed
  | ok (uid : String)
  deriving DecidableEq

/-- `email_exists` (lines 230-239), with emails already lower-cased. -/
def emailExists (users : List UserRow) (email : String) : Bool :=
  users.any (fun u => u.email == email)

/-- `get_user_data` (lines 280-291): first CSV row with the given id. -/
def getUserData (users : List UserRow) (uid : String) : Option UserRow :=
  users.find? (fun u => u.user_id == uid)

/-- The name surfaced by the duplicate-face rejection (lines 604-606):
`matched_user_data['name'] if matched_user_data else matched_user_id`. -/
def surfacedName (users : List UserRow) (matched_user_id : String) : String :=
  match getUserData users matched_user_id with
  | some u => u.name
  | none => matched_user_id

/-- The decode loop of lines 594-599: every image must decode, the first
failure aborts the request. -/
def decodeAll {ι : Type} : List (Option ι) → Option (List ι)
  | [] => some []
  | o :: rest =>
    match o with
    | none => none
    | some img => (decodeAll rest).map (fun l => img :: l)

/-- The photo file names written by lines 623-625: `uid_1 … uid_n`. -/
def photoFileNames (uid : String) (n : ℕ) : List String :=
  (List.range n).map (fun i => uid ++ "_" ++ toString (i + 1))

/-- The /register route (lines 565-667). `csvOk` is the outcome of
`save_user_data` (an I/O operation that may fail), `uid` the generated
`uuid4` identifier. Writing the pickle appends to the gallery, writing the
photos appends `uid_1 … uid_n` and the legacy name `uid`; the cleanup of
lines 645-657 removes exactly those files again. -/
noncomputable def register {ι β : Type} {k : ℕ} (detect : ι → List (Face β))
    (extract : β → Option (Vec k)) (sim : Vec k → Vec k → ℚ)
    (csvOk : Bool) (uid : String) (st : BackendState (Vec k))
    (req : RegisterRequest ι) : BackendState (Vec k) × RegisterResult :=
  if req.images.length = 0 then (st, .errNoImages)
  else if req.images.length < 2 then (st, .errTooFewImages req.images.length)
  else if req.email ≠ "" ∧ emailExists st.users req.email = true then
    (st, .errEmailExists)
  else
    match decodeAll req.images with
    | none => (st, .errInvalidImage)
    | some images =>
      match images with
      | [] => (st, .errNoImages)
      | img0 :: _ =>
        let matched_user_id :=
          recognize_user_enhanced detect extract sim st.pickles img0
        if matched_user_id ≠ "no_persons_found" ∧
            matched_user_id ≠ "unknown_person" then
          (st, .errDuplicateFace (surfacedName st.users matched_user_id))
        else
          let extractionOut :=
            extract_features_from_multiple_images detect extract images
          match extractionOut.1 with
          | none => (st, .errInsufficientFaces extractionOut.2 images.length)
          | some training_data =>
            let pickles1 := st.pickles ++ [(uid, StoredProfile.multi training_data)]
            let newPhotos := photoFileNames uid images.length ++ [uid]
            let photos1 := st.photos ++ newPhotos
            if csvOk = true then
              (⟨pickles1, photos1, st.users ++ [⟨uid, req.name, req.email⟩]⟩,
                .ok uid)
            else
              (⟨pickles1.filter (fun e => decide (e.1 ≠ uid)),
                  photos1.filter (fun p => decide (p ∉ newPhotos)),
                  st.users⟩,
                .errSaveFailed)

/-- Concrete similarity oracle over a trivial embedding type, used by the
closed witness instances below. -/
def simUnit : Unit → Unit → ℚ := fun _ _ => 1

/-- Concrete multi-photo profile over the trivial embedding type. -/
def tdUnit : TrainingData Unit := ⟨(), [()], 3, 1⟩

/-- Concrete one-profile gallery over the trivial embedding type. -/
def galleryUnit : List (String × StoredProfile Unit) :=
  [("alice", StoredProfile.multi tdUnit)]

/-- Concrete face localizer: every image has exactly one 10x10 face. -/
def detectU : Unit → List (Face Unit) := fun _ => [⟨(), ⟨0, 0, 10, 10⟩, 1⟩]

/-- Concrete face localizer over natural-number images. -/
def detectN : ℕ → List (Face Unit) := fun _ => [⟨(), ⟨0, 0, 10, 10⟩, 1⟩]

/-- Concrete feature extractor into the zero-dimensional vector space. -/
def extractU : Unit → Option (Vec 0) := fun _ => some Fin.elim0

/-- Concrete similarity oracle over zero-dimensional vectors. -/
def simV : Vec 0 → Vec 0 → ℚ := fun _ _ => 1

/-- Concrete multi-photo profile over zero-dimensional vectors. -/
def tdV : TrainingData (Vec 0) := ⟨Fin.elim0, [Fin.elim0], 3, 1⟩

/-- Backend state holding one enrolled identity with a CSV row. -/
def stDup : BackendState (Vec 0) :=
  ⟨[("alice", StoredProfile.multi tdV)], [], [⟨"alice", "Alice", ""⟩]⟩

/-- Backend state with an empty gallery, no photos, no users. -/
def stEmpty : BackendState (Vec 0) := ⟨[], [], []⟩

/-- A well-formed two-image registration request. -/
def reqTwo : RegisterRequest Unit := ⟨"Bob", "", [some (), some ()]⟩

/-- A 1x1 face region. -/
def faceSmall : Face Unit := ⟨(), ⟨0, 0, 1, 1⟩, 1⟩

/-- A 2x2 face region. -/
def faceBig : Face Unit := ⟨(), ⟨0, 0, 2, 2⟩, 1⟩

/-- Helper: a left fold of `max` only grows its accumulator. -/
theorem foldl_max_le_self (xs : List ℚ) (a : ℚ) : a ≤ xs.foldl max a := by
  induction xs generalizing a with
  | nil => exact le_refl a
  | cons y ys ih => exact le_trans (le_max_left a y) (ih (max a y))

/-- Helper: every list element is below the `max` fold. -/
theorem le_foldl_max (xs : List ℚ) (a x : ℚ) (hx : x ∈ xs) :
    x ≤ xs.foldl max a := by
  induction xs generalizing a with
  | nil => cases hx
  | cons y ys ih =>
    rcases List.mem_cons.mp hx with h | h
    · subst h
      exact le_trans (le_max_right a x) (foldl_max_le_self ys (max a x))
    · exact ih (max a y) h

/-- Helper: the `max` fold is the seed or one of the list elements. -/
theorem foldl_max_mem (xs : List ℚ) (a : ℚ) :
    xs.foldl max a = a ∨ xs.foldl max a ∈ xs := by
  induction xs generalizing a with
  | nil => exact Or.inl rfl
  | cons y ys ih =>
    rcases ih (max a y) with h | h
    · rcases max_choice a y with hm | hm
      · exact Or.inl (by rw [List.foldl_cons, h, hm])
      · exact Or.inr (by rw [List.foldl_cons, h, hm]; exact List.mem_cons_self y ys)
    · exact Or.inr (List.mem_cons_of_mem y h)

/-- Helper: on a nonempty list, `pyMax` is an element of the list. -/
theorem pyMax_mem (l : List ℚ) (h : l ≠ []) : pyMax l ∈ l := by
  match l with
  | [] => exact absurd rfl h
  | x :: xs =>
    rcases foldl_max_mem xs x with hm | hm
    · rw [pyMax, hm]; exact List.mem_cons_self x xs
    · exact List.mem_cons_of_mem x hm

/-- Helper: `pyMax` bounds every element of the list. -/
theorem le_pyMax (l : List ℚ) (x : ℚ) (hx : x ∈ l) : x ≤ pyMax l := by
  match l with
  | [] => cases hx
  | y :: ys =>
    rcases List.mem_cons.mp hx with h | h
    · subst h; exact foldl_max_le_self ys x
    · exact le_foldl_max ys y x h

/-- Helper: on a nonempty list, `pyMean` is the sum divided by the length. -/
theorem pyMean_eq (l : List ℚ) (h : l ≠ []) :
    pyMean l = l.sum / (l.length : ℚ) := by
  match l with
  | [] => exact absurd rfl h
  | x :: xs => rfl

/-- C2: the advanced comparison uses threshold 0.70 exactly when
`photoCount ≥ 3` and 0.75 otherwise (in particular when it is 2); a legacy
profile compared via the simple form with no explicit threshold argument is
always compared against 0.75; in both forms `isMatch` holds exactly when
the computed score is at least the selected threshold. -/
theorem claim2_threshold_selection {α : Type} (sim : α → α → ℚ)
    (d : TrainingData α) (u f : α) :
    (multi_photo_threshold = 70 / 100 ∧ strict_threshold = 75 / 100) ∧
    ((compare_features_advanced sim (some d) (some u)).1 = true ↔
      (if 3 ≤ d.num_photos then multi_photo_threshold else strict_threshold) ≤
        (compare_features_advanced sim (some d) (some u)).2) ∧
    ((compare_features_simple sim (some f) (some u) none).1 = true ↔
      strict_threshold ≤ (compare_features_simple sim (some f) (some u) none).2) := by
  refine ⟨⟨rfl, rfl⟩, ?_, ?_⟩
  · simp [compare_features_advanced]
  · simp [compare_features_simple]

/-- C3: for a multi-photo profile with at least one individual embedding
and a non-null unknown embedding, the advanced score equals
(0.4 * ensemble similarity + 0.3 * maximum individual similarity +
0.3 * mean individual similarity) * min(trainingQuality, 1). -/
theorem claim3_advanced_score_formula {α : Type} (sim : α → α → ℚ)
    (d : TrainingData α) (u : α) (h : d.individual_features ≠ []) :
    ∃ m ∈ d.individual_features.map (fun f => sim f u),
      (∀ x ∈ d.individual_features.map (fun f => sim f u), x ≤ m) ∧
      (compare_features_advanced sim (some d) (some u)).2 =
        ((4 / 10) * sim d.ensemble_features u + (3 / 10) * m +
          (3 / 10) * ((d.individual_features.map (fun f => sim f u)).sum /
            ((d.individual_features.map (fun f => sim f u)).length : ℚ))) *
          min d.training_quality 1 := by
  have hne : d.individual_features.map (fun f => sim f u) ≠ [] := by
    simpa using h
  refine ⟨pyMax _, pyMax_mem _ hne, fun x hx => le_pyMax _ x hx, ?_⟩
  simp only [compare_features_advanced]
  rw [pyMean_eq _ hne]
  ring

/-- C7: a null stored profile or a null unknown embedding makes both the
advanced and the simple comparison return `(false, 0.0)`; both embedded
functions are total, mirroring that the Python code reaches this result via
an explicit check (advanced form) or a caught exception (simple form)
rather than by propagating an exception. -/
theorem claim7_null_inputs_no_match {α : Type} (sim : α → α → ℚ)
    (od : Option (TrainingData α)) (ou x : Option α) (t : Option ℚ) :
    compare_features_advanced sim none ou = (false, 0) ∧
    compare_features_advanced sim od none = (false, 0) ∧
    compare_features_simple sim none x t = (false, 0) ∧
    compare_features_simple sim x none t = (false, 0) := by
  refine ⟨?_, ?_, ?_, ?_⟩
  · cases ou <;> rfl
  · cases od <;> rfl
  · cases x <;> rfl
  · cases x <;> rfl

/-- Helper: one scan step never decreases the best score. -/
theorem scanStep_score_le {α : Type} (sim : α → α → ℚ) (u : α)
    (acc : Option String × ℚ) (e : String × StoredProfile α) :
    acc.2 ≤ (scanStep sim u acc e).2 := by
  simp only [scanStep]
  split
  · next hcond => exact le_of_lt hcond.2
  · exact le_refl _

/-- Helper: the scan fold never decreases the best score. -/
theorem scanFold_score_le {α : Type} (sim : α → α → ℚ) (u : α)
    (l : List (String × StoredProfile α)) :
    ∀ acc, acc.2 ≤ (l.foldl (scanStep sim u) acc).2 := by
  induction l with
  | nil => intro acc; exact le_refl _
  | cons e es ih =>
    intro acc
    rw [List.foldl_cons]
    exact le_trans (scanStep_score_le sim u acc e) (ih _)

/-- Helper: a profile that matches scored at least 0.70 (the lower of the
two thresholds), in particular strictly more than the initial best score 0. -/
theorem profileResult_match_score {α : Type} (sim : α → α → ℚ) (u : α)
    (p : StoredProfile α) (h : (profileResult sim u p).1 = true) :
    (70 : ℚ) / 100 ≤ (profileResult sim u p).2 := by
  cases p with
  | corrupt => simp [profileResult] at h
  | legacy f =>
    simp only [profileResult, compare_features_simple, Option.getD,
      ge_iff_le, decide_eq_true_eq] at h ⊢
    calc (70 : ℚ) / 100 ≤ strict_threshold := by norm_num [strict_threshold]
      _ ≤ sim f u := h
  | multi d =>
    simp only [profileResult, compare_features_advanced, ge_iff_le,
      decide_eq_true_eq] at h ⊢
    split at h
    · exact le_trans (by norm_num [multi_photo_threshold]) h
    · exact le_trans (by norm_num [strict_threshold]) h

/-- Helper: the final best score dominates the score of every matching
entry visited by the scan. -/
theorem scanFold_dominates {α : Type} (sim : α → α → ℚ) (u : α)
    (l : List (String × StoredProfile α)) :
    ∀ acc, ∀ e ∈ l, (profileResult sim u e.2).1 = true →
      (profileResult sim u e.2).2 ≤ (l.foldl (scanStep sim u) acc).2 := by
  induction l with
  | nil => intro acc e he; cases he
  | cons x xs ih =>
    intro acc e he hm
    rw [List.foldl_cons]
    rcases List.mem_cons.mp he with h | h
    · subst h
      by_cases hfire : (profileResult sim u e.2).1 = true ∧
          acc.2 < (profileResult sim u e.2).2
      · have hstep : scanStep sim u acc e =
            (some e.1, (profileResult sim u e.2).2) := by
          simp only [scanStep]
          rw [if_pos hfire]
        calc (profileResult sim u e.2).2 = (scanStep sim u acc e).2 := by
              rw [hstep]
          _ ≤ _ := scanFold_score_le sim u xs _
      · have hnotlt : ¬ acc.2 < (profileResult sim u e.2).2 := fun hlt =>
          hfire ⟨hm, hlt⟩
        have hstep : scanStep sim u acc e = acc := by
          simp only [scanStep]
          rw [if_neg hfire]
        calc (profileResult sim u e.2).2 ≤ acc.2 := le_of_not_lt hnotlt
          _ = (scanStep sim u acc e).2 := by rw [hstep]
          _ ≤ _ := scanFold_score_le sim u xs _
    · exact ih (scanStep sim u acc x) e h hm

/-- Helper: if the scan ends with no best match, no step ever fired: the
accumulator is returned unchanged and every matching entry scored at most
the initial best score. -/
theorem scanFold_none {α : Type} (sim : α → α → ℚ) (u : α)
    (l : List (String × StoredProfile α)) :
    ∀ acc, (l.foldl (scanStep sim u) acc).1 = none →
      l.foldl (scanStep sim u) acc = acc ∧
      ∀ e ∈ l, (profileResult sim u e.2).1 = true →
        (profileResult sim u e.2).2 ≤ acc.2 := by
  induction l with
  | nil =>
    intro acc h
    exact ⟨rfl, by intro e he; cases he⟩
  | cons x xs ih =>
    intro acc h
    rw [List.foldl_cons] at h ⊢
    by_cases hfire : (profileResult sim u x.2).1 = true ∧
        acc.2 < (profileResult sim u x.2).2
    · have hstep : scanStep sim u acc x =
          (some x.1, (profileResult sim u x.2).2) := by
        simp only [scanStep]
        rw [if_pos hfire]
      rw [hstep] at h
      rcases ih _ h with ⟨heq, _⟩
      rw [heq] at h
      simp at h
    · have hstep : scanStep sim u acc x = acc := by
        simp only [scanStep]
        rw [if_neg hfire]
      rw [hstep] at h ⊢
      rcases ih acc h with ⟨heq, hall⟩
      refine ⟨heq, ?_⟩
      intro e he hm
      rcases List.mem_cons.mp he with hh | hh
      · subst hh
        exact le_of_not_lt (fun hlt => hfire ⟨hm, hlt⟩)
      · exact hall e hh hm

/-- Helper: if the scan ends with a best match, either nothing fired (the
accumulator already held it) or the match is an entry of the gallery whose
comparison matched and whose score is the final best score. -/
theorem scanFold_some {α : Type} (sim : α → α → ℚ) (u : α)
    (l : List (String × StoredProfile α)) :
    ∀ acc kk, (l.foldl (scanStep sim u) acc).1 = some kk →
      l.foldl (scanStep sim u) acc = acc ∨
      ∃ p, (kk, p) ∈ l ∧ (profileResult sim u p).1 = true ∧
        (l.foldl (scanStep sim u) acc).2 = (profileResult sim u p).2 := by
  induction l with
  | nil => intro acc kk h; exact Or.inl rfl
  | cons x xs ih =>
    intro acc kk h
    rw [List.foldl_cons] at h ⊢
    by_cases hfire : (profileResult sim u x.2).1 = true ∧
        acc.2 < (profileResult sim u x.2).2
    · have hstep : scanStep sim u acc x =
          (some x.1, (profileResult sim u x.2).2) := by
        simp only [scanStep]
        rw [if_pos hfire]
      rw [hstep] at h ⊢
      rcases ih _ kk h with heq | ⟨p, hp, hm, hs⟩
      · rw [heq] at h ⊢
        have hkk : x.1 = kk := by simpa using h
        right
        refine ⟨x.2, ?_, hfire.1, by simp⟩
        rw [← hkk]
        exact List.mem_cons_self x xs
      · exact Or.inr ⟨p, List.mem_cons_of_mem x hp, hm, hs⟩
    · have hstep : scanStep sim u acc x = acc := by
        simp only [scanStep]
        rw [if_neg hfire]
      rw [hstep] at h ⊢
      rcases ih acc kk h with heq | ⟨p, hp, hm, hs⟩
      · exact Or.inl heq
      · exact Or.inr ⟨p, List.mem_cons_of_mem x hp, hm, hs⟩

/-- Helper: when no gallery entry matches, the scan returns its
accumulator unchanged. -/
theorem scanFold_const {α : Type} (sim : α → α → ℚ) (u : α)
    (l : List (String × StoredProfile α)) :
    ∀ acc, (∀ e ∈ l, (profileResult sim u e.2).1 = false) →
      l.foldl (scanStep sim u) acc = acc := by
  induction l with
  | nil => intro acc _; rfl
  | cons x xs ih =>
    intro acc h
    rw [List.foldl_cons]
    have hx := h x (List.mem_cons_self x xs)
    have hstep : scanStep sim u acc x = acc := by
      simp [scanStep, hx]
    rw [hstep]
    exact ih acc (fun e he => h e (List.mem_cons_of_mem x he))

/-- Helper: the scan fold is unchanged by dropping the profiles whose
pickle fails to load, since the step on a corrupt entry is the identity. -/
theorem scanFold_filter {α : Type} (sim : α → α → ℚ) (u : α)
    (l : List (String × StoredProfile α)) :
    ∀ acc, l.foldl (scanStep sim u) acc =
      (l.filter (fun e => isLoadable e.2)).foldl (scanStep sim u) acc := by
  induction l with
  | nil => intro acc; rfl
  | cons x xs ih =>
    intro acc
    rcases hx2 : x.2 with _ | f | d
    · have hstep : scanStep sim u acc x = acc := by
        simp [scanStep, profileResult, hx2]
      have hfilter : (x :: xs).filter (fun e => isLoadable e.2) =
          xs.filter (fun e => isLoadable e.2) := by
        simp [List.filter_cons, hx2, isLoadable]
      rw [List.foldl_cons, hstep, hfilter]
      exact ih acc
    · have hfilter : (x :: xs).filter (fun e => isLoadable e.2) =
          x :: xs.filter (fun e => isLoadable e.2) := by
        simp [List.filter_cons, hx2, isLoadable]
      rw [List.foldl_cons, hfilter, List.foldl_cons]
      exact ih _
    · have hfilter : (x :: xs).filter (fun e => isLoadable e.2) =
          x :: xs.filter (fun e => isLoadable e.2) := by
        simp [List.filter_cons, hx2, isLoadable]
      rw [List.foldl_cons, hfilter, List.foldl_cons]
      exact ih _

/-- C1: the gallery scan dispatches every stored profile to the advanced
comparison (multi-photo) or the simple comparison (legacy) — that dispatch
is `profileResult` — and, provided identity keys are nonempty strings (they
are uuid4 prefixes), it returns the sentinel 'unknown_person' when no
profile matched, and otherwise an identity key of a matching profile whose
score is maximal among all matching profiles. -/
theorem claim1_gallery_scan_best_match {α : Type} (sim : α → α → ℚ) (u : α)
    (gallery : List (String × StoredProfile α))
    (hkeys : ∀ e ∈ gallery, e.1 ≠ "") :
    ((∀ e ∈ gallery, (profileResult sim u e.2).1 = false) →
      recognizeResult (scanGallery sim u gallery).1 = "unknown_person") ∧
    ((∃ e ∈ gallery, (profileResult sim u e.2).1 = true) →
      ∃ kk p, (scanGallery sim u gallery).1 = some kk ∧
        recognizeResult (scanGallery sim u gallery).1 = kk ∧
        (kk, p) ∈ gallery ∧ (profileResult sim u p).1 = true ∧
        (scanGallery sim u gallery).2 = (profileResult sim u p).2 ∧
        (∀ e ∈ gallery, (profileResult sim u e.2).1 = true →
          (profileResult sim u e.2).2 ≤ (scanGallery sim u gallery).2)) := by
  constructor
  · intro hnone
    have hconst : scanGallery sim u gallery = (none, 0) :=
      scanFold_const sim u gallery (none, 0) hnone
    rw [hconst]
    rfl
  · rintro ⟨e, he, hm⟩
    have hne : (scanGallery sim u gallery).1 ≠ none := by
      intro hnone
      rcases scanFold_none sim u gallery (none, 0) hnone with ⟨_, hall⟩
      have h1 := hall e he hm
      have h2 := profileResult_match_score sim u e.2 hm
      simp only [] at h1
      linarith
    rcases Option.ne_none_iff_exists'.mp hne with ⟨kk, hkk⟩
    rcases scanFold_some sim u gallery (none, 0) kk hkk with heq | ⟨p, hp, hmp, hs⟩
    · rw [show scanGallery sim u gallery =
          gallery.foldl (scanStep sim u) (none, 0) from rfl, heq] at hkk
      simp at hkk
    · refine ⟨kk, p, hkk, ?_, hp, hmp, hs,
        fun e2 he2 hm2 => scanFold_dominates sim u gallery (none, 0) e2 he2 hm2⟩
      have hkkne : kk ≠ "" := hkeys (kk, p) hp
      rw [hkk]
      simp [recognizeResult, hkkne]

/-- C6: a stored profile whose pickle fails to load is skipped and the scan
continues over the rest of the gallery — the scan result over any gallery
equals the result over the gallery with unloadable profiles removed; in
particular a gallery of one corrupt profile followed by one valid matching
multi-photo profile still yields the valid match. -/
theorem claim6_corrupt_profile_skipped {α : Type} (sim : α → α → ℚ) (u : α)
    (gallery : List (String × StoredProfile α)) (k0 kk : String)
    (d : TrainingData α) (hk : kk ≠ "")
    (hm : (compare_features_advanced sim (some d) (some u)).1 = true) :
    scanGallery sim u gallery =
      scanGallery sim u (gallery.filter (fun e => isLoadable e.2)) ∧
    recognizeResult (scanGallery sim u
        [(k0, StoredProfile.corrupt), (kk, StoredProfile.multi d)]).1 = kk := by
  constructor
  · exact scanFold_filter sim u gallery (none, 0)
  · have hm' : (profileResult sim u (StoredProfile.multi d)).1 = true := hm
    have hscore := profileResult_match_score sim u (StoredProfile.multi d) hm'
    have hstep1 : scanStep sim u (none, 0) (k0, StoredProfile.corrupt) =
        (none, 0) := by
      simp [scanStep, profileResult]
    have hfire : (profileResult sim u (StoredProfile.multi d)).1 = true ∧
        ((none, 0) : Option String × ℚ).2 <
          (profileResult sim u (StoredProfile.multi d)).2 := by
      refine ⟨hm', ?_⟩
      simp only []
      linarith
    have hstep2 : scanStep sim u (none, 0) (kk, StoredProfile.multi d) =
        (some kk, (profileResult sim u (StoredProfile.multi d)).2) := by
      simp only [scanStep]
      rw [if_pos hfire]
    show recognizeResult
        (([(k0, StoredProfile.corrupt), (kk, StoredProfile.multi d)]).foldl
          (scanStep sim u) (none, 0)).1 = kk
    rw [List.foldl_cons, hstep1, List.foldl_cons, hstep2, List.foldl_nil]
    simp [recognizeResult, hk]

/-- Helper: Python's argmax fold only grows the key of its accumulator. -/
theorem foldl_pick_key_le {γ : Type} (key : γ → Int) (xs : List γ) :
    ∀ a, key a ≤
      key (xs.foldl (fun acc y => if key acc < key y then y else acc) a) := by
  induction xs with
  | nil => intro a; exact le_refl _
  | cons y ys ih =>
    intro a
    rw [List.foldl_cons]
    by_cases h : key a < key y
    · rw [if_pos h]
      exact le_trans (le_of_lt h) (ih y)
    · rw [if_neg h]
      exact ih a

/-- Helper: the argmax fold dominates the key of every list element. -/
theorem key_le_foldl_pick {γ : Type} (key : γ → Int) (xs : List γ) :
    ∀ a x, x ∈ xs → key x ≤
      key (xs.foldl (fun acc y => if key acc < key y then y else acc) a) := by
  induction xs with
  | nil => intro a x hx; cases hx
  | cons y ys ih =>
    intro a x hx
    rw [List.foldl_cons]
    rcases List.mem_cons.mp hx with h | h
    · subst h
      by_cases hc : key a < key x
      · rw [if_pos hc]
        exact foldl_pick_key_le key ys x
      · rw [if_neg hc]
        exact le_trans (le_of_not_lt hc) (foldl_pick_key_le key ys a)
    · by_cases hc : key a < key y
      · rw [if_pos hc]
        exact ih y x h
      · rw [if_neg hc]
        exact ih a x h

/-- Helper: the argmax fold returns its seed or a list element. -/
theorem foldl_pick_mem {γ : Type} (key : γ → Int) (xs : List γ) :
    ∀ a, xs.foldl (fun acc y => if key acc < key y then y else acc) a = a ∨
      xs.foldl (fun acc y => if key acc < key y then y else acc) a ∈ xs := by
  induction xs with
  | nil => intro a; exact Or.inl rfl
  | cons y ys ih =>
    intro a
    rw [List.foldl_cons]
    by_cases hc : key a < key y
    · rw [if_pos hc]
      rcases ih y with h | h
      · exact Or.inr (by rw [h]; exact List.mem_cons_self y ys)
      · exact Or.inr (List.mem_cons_of_mem y h)
    · rw [if_neg hc]
      rcases ih a with h | h
      · exact Or.inl h
      · exact Or.inr (List.mem_cons_of_mem y h)

/-- C9: the face-selection policy returns none exactly on an empty region
list, and otherwise a region of the list whose bounding-box area
(width times height) is maximal among all regions. The embedded recognition
path and the embedded per-photo enrollment path both invoke this same
`selectLargestFace`. -/
theorem claim9_largest_face_selection {β : Type} (faces : List (Face β)) :
    (selectLargestFace faces = none ↔ faces = []) ∧
    (∀ f, selectLargestFace faces = some f →
      f ∈ faces ∧ ∀ g ∈ faces, g.bbox.area ≤ f.bbox.area) := by
  match faces with
  | [] =>
    refine ⟨by simp [selectLargestFace, pyMaxBy], ?_⟩
    intro f hf
    cases hf
  | x :: xs =>
    constructor
    · constructor
      · intro h
        exact absurd h (by simp [selectLargestFace, pyMaxBy])
      · intro h
        cases h
    · intro f hf
      have hfold := Option.some.inj hf
      constructor
      · rcases foldl_pick_mem (fun g : Face β => g.bbox.area) xs x with h | h
        · rw [← hfold, h]
          exact List.mem_cons_self x xs
        · rw [← hfold]
          exact List.mem_cons_of_mem x h
      · intro g hg
        rw [← hfold]
        rcases List.mem_cons.mp hg with h | h
        · subst h
          exact foldl_pick_key_le (fun g : Face β => g.bbox.area) xs g
        · exact key_le_foldl_pick (fun g : Face β => g.bbox.area) xs x g h

/-- Helper: the second component of the aggregation result is always the
number of images that yielded a usable embedding. -/
theorem agg_snd {ι β : Type} {k : ℕ} (detect : ι → List (Face β))
    (extract : β → Option (Vec k)) (images : List ι) :
    (extract_features_from_multiple_images detect extract images).2 =
      (extractedFeatures detect extract images).length := by
  simp only [extract_features_from_multiple_images]
  split <;> rfl

/-- Helper: fewer than two usable embeddings make aggregation fail. -/
theorem agg_fst_of_lt {ι β : Type} {k : ℕ} (detect : ι → List (Face β))
    (extract : β → Option (Vec k)) (images : List ι)
    (h : (extractedFeatures detect extract images).length < 2) :
    (extract_features_from_multiple_images detect extract images).1 = none := by
  simp only [extract_features_from_multiple_images]
  rw [if_pos h]

/-- Helper: with two or more usable embeddings, aggregation returns the
profile built from them. -/
theorem agg_fst_of_ge {ι β : Type} {k : ℕ} (detect : ι → List (Face β))
    (extract : β → Option (Vec k)) (images : List ι)
    (h : 2 ≤ (extractedFeatures detect extract images).length) :
    (extract_features_from_multiple_images detect extract images).1 =
      some ⟨l2normalize (npMean (extractedFeatures detect extract images)),
        extractedFeatures detect extract images,
        (extractedFeatures detect extract images).length,
        ((extractedFeatures detect extract images).length : ℚ) /
          (images.length : ℚ)⟩ := by
  simp only [extract_features_from_multiple_images]
  rw [if_neg (not_lt.mpr h)]

/-- C4: aggregation over a sequence of enrollment images returns the count
of usable images; with fewer than 2 usable embeddings the profile is null,
and with 2 or more the profile's photoCount equals the number of usable
embeddings and its trainingQuality equals that number divided by the total
number of images submitted. -/
theorem claim4_aggregation_counts {ι β : Type} {k : ℕ}
    (detect : ι → List (Face β)) (extract : β → Option (Vec k))
    (images : List ι) :
    (extract_features_from_multiple_images detect extract images).2 =
      (extractedFeatures detect extract images).length ∧
    ((extractedFeatures detect extract images).length < 2 →
      (extract_features_from_multiple_images detect extract images).1 = none) ∧
    (2 ≤ (extractedFeatures detect extract images).length →
      (extract_features_from_multiple_images detect extract images).1 =
        some ⟨l2normalize (npMean (extractedFeatures detect extract images)),
          extractedFeatures detect extract images,
          (extractedFeatures detect extract images).length,
          ((extractedFeatures detect extract images).length : ℚ) /
            (images.length : ℚ)⟩) :=
  ⟨agg_snd detect extract images, agg_fst_of_lt detect extract images,
    agg_fst_of_ge detect extract images⟩

/-- C8: the ensemble embedding of a successful aggregation is the
arithmetic mean of the accepted embeddings re-normalized to unit length,
and it is invariant under any reordering of the input images. -/
theorem claim8_ensemble_mean_perm_invariant {ι β : Type} {k : ℕ}
    (detect : ι → List (Face β)) (extract : β → Option (Vec k))
    (i1 i2 : List ι) (hperm : i1.Perm i2) :
    (Option.map TrainingData.ensemble_features
        (extract_features_from_multiple_images detect extract i1).1 =
      if 2 ≤ (extractedFeatures detect extract i1).length then
        some (l2normalize (npMean (extractedFeatures detect extract i1)))
      else none) ∧
    Option.map TrainingData.ensemble_features
        (extract_features_from_multiple_images detect extract i1).1 =
      Option.map TrainingData.ensemble_features
        (extract_features_from_multiple_images detect extract i2).1 := by
  have hF : (extractedFeatures detect extract i1).Perm
      (extractedFeatures detect extract i2) := hperm.filterMap _
  have hlen : (extractedFeatures detect extract i1).length =
      (extractedFeatures detect extract i2).length := hF.length_eq
  have hmean : npMean (extractedFeatures detect extract i1) =
      npMean (extractedFeatures detect extract i2) := by
    funext j
    simp only [npMean]
    rw [(hF.map (fun v => v j)).sum_eq, hF.length_eq]
  have hshape : ∀ l : List ι,
      Option.map TrainingData.ensemble_features
        (extract_features_from_multiple_images detect extract l).1 =
      if 2 ≤ (extractedFeatures detect extract l).length then
        some (l2normalize (npMean (extractedFeatures detect extract l)))
      else none := by
    intro l
    by_cases h : 2 ≤ (extractedFeatures detect extract l).length
    · rw [agg_fst_of_ge detect extract l h, if_pos h]
      rfl
    · rw [agg_fst_of_lt detect extract l (not_le.mp h), if_neg h]
      rfl
  refine ⟨hshape i1, ?_⟩
  rw [hshape i1, hshape i2, hlen, hmean]

/-- C5: when the duplicate-face guard — the gallery-scan recognition run on
the first submitted image — returns a known identity (neither sentinel),
registration is rejected, the identity (via its stored display name, or the
raw key when no CSV row exists) is surfaced, and the backend state is
returned unchanged: no pickle, photo or CSV row is written. -/
theorem claim5_duplicate_face_guard {ι β : Type} {k : ℕ}
    (detect : ι → List (Face β)) (extract : β → Option (Vec k))
    (sim : Vec k → Vec k → ℚ) (csvOk : Bool) (uid : String)
    (st : BackendState (Vec k)) (req : RegisterRequest ι)
    (img0 : ι) (rest : List ι) (matched : String)
    (hlen : 2 ≤ req.images.length)
    (hemail : ¬ (req.email ≠ "" ∧ emailExists st.users req.email = true))
    (hdec : decodeAll req.images = some (img0 :: rest))
    (hmatch : recognize_user_enhanced detect extract sim st.pickles img0 = matched)
    (h1 : matched ≠ "no_persons_found") (h2 : matched ≠ "unknown_person") :
    register detect extract sim csvOk uid st req =
      (st, RegisterResult.errDuplicateFace (surfacedName st.users matched)) := by
  have h0 : ¬ req.images.length = 0 := by omega
  have hlt : ¬ req.images.length < 2 := by omega
  simp only [register, hdec]
  rw [if_neg h0, if_neg hlt, if_neg hemail, hmatch, if_pos ⟨h1, h2⟩]

/-- C10: if the profile pickle and the photos have been written but saving
the CSV row fails, register removes the written pickle and every saved
photo and reports failure; for a fresh identifier (no stored pickle or
photo already uses it) the final state equals the initial state, so a
failed registration leaves the gallery without a profile for the
attempted identity. -/
theorem claim10_cleanup_on_csv_failure {ι β : Type} {k : ℕ}
    (detect : ι → List (Face β)) (extract : β → Option (Vec k))
    (sim : Vec k → Vec k → ℚ) (uid : String)
    (st : BackendState (Vec k)) (req : RegisterRequest ι)
    (img0 : ι) (rest : List ι)
    (hlen : 2 ≤ req.images.length)
    (hemail : ¬ (req.email ≠ "" ∧ emailExists st.users req.email = true))
    (hdec : decodeAll req.images = some (img0 :: rest))
    (hnodup : ¬ (recognize_user_enhanced detect extract sim st.pickles img0 ≠
        "no_persons_found" ∧
      recognize_user_enhanced detect extract sim st.pickles img0 ≠
        "unknown_person"))
    (hvalid : 2 ≤ (extractedFeatures detect extract (img0 :: rest)).length)
    (hfreshp : ∀ e ∈ st.pickles, e.1 ≠ uid)
    (hfreshf : ∀ p ∈ st.photos,
      p ∉ photoFileNames uid (img0 :: rest).length ++ [uid]) :
    register detect extract sim false uid st req =
      (st, RegisterResult.errSaveFailed) := by
  have h0 : ¬ req.images.length = 0 := by omega
  have hlt : ¬ req.images.length < 2 := by omega
  simp only [register, hdec,
    agg_fst_of_ge detect extract (img0 :: rest) hvalid]
  rw [if_neg h0, if_neg hlt, if_neg hemail, if_neg hnodup]
  have hfalse : ¬ (false = true) := by simp
  rw [if_neg hfalse]
  have hpickles : (st.pickles ++
      [(uid, StoredProfile.multi
        ⟨l2normalize (npMean (extractedFeatures detect extract (img0 :: rest))),
          extractedFeatures detect extract (img0 :: rest),
          (extractedFeatures detect extract (img0 :: rest)).length,
          ((extractedFeatures detect extract (img0 :: rest)).length : ℚ) /
            ((img0 :: rest).length : ℚ)⟩)]).filter
        (fun e => decide (e.1 ≠ uid)) = st.pickles := by
    rw [List.filter_append]
    have ha : st.pickles.filter (fun e => decide (e.1 ≠ uid)) = st.pickles :=
      List.filter_eq_self.mpr (fun e he => by simpa using hfreshp e he)
    have hb : List.filter (fun e => decide (e.1 ≠ uid))
        [(uid, StoredProfile.multi
          ⟨l2normalize (npMean (extractedFeatures detect extract (img0 :: rest))),
            extractedFeatures detect extract (img0 :: rest),
            (extractedFeatures detect extract (img0 :: rest)).length,
            ((extractedFeatures detect extract (img0 :: rest)).length : ℚ) /
              ((img0 :: rest).length : ℚ)⟩)] = [] := by
      simp
    rw [ha, hb, List.append_nil]
  have hphotos : (st.photos ++
      (photoFileNames uid (img0 :: rest).length ++ [uid])).filter
        (fun p => decide (p ∉ photoFileNames uid (img0 :: rest).length ++ [uid]))
      = st.photos := by
    rw [List.filter_append]
    have ha : st.photos.filter
        (fun p => decide (p ∉ photoFileNames uid (img0 :: rest).length ++ [uid]))
        = st.photos :=
      List.filter_eq_self.mpr (fun p hp => by simpa using hfreshf p hp)
    have hb : (photoFileNames uid (img0 :: rest).length ++ [uid]).filter
        (fun p => decide (p ∉ photoFileNames uid (img0 :: rest).length ++ [uid]))
        = [] := by
      rw [List.filter_eq_nil_iff]
      intro p hp
      simp only [decide_eq_true_eq]
      exact fun hc => hc hp
    rw [ha, hb, List.append_nil]
  rw [hpickles, hphotos]

/-- Helper: with a constant-one similarity oracle, a profile of three
photos and full training quality scores 1 and matches. -/
theorem cfa_const_one {α : Type} (e0 x0 u : α) :
    (compare_features_advanced (fun _ _ => (1 : ℚ))
      (some ⟨e0, [x0], 3, 1⟩) (some u)).1 = true := by
  norm_num [compare_features_advanced, pyMax, pyMean, multi_photo_threshold]

/-- Helper: a singleton gallery whose only profile matches scans to that
profile's key and score. -/
theorem scanGallery_single_match {α : Type} (sim : α → α → ℚ) (u : α)
    (kk : String) (d : TrainingData α)
    (hm : (compare_features_advanced sim (some d) (some u)).1 = true) :
    scanGallery sim u [(kk, StoredProfile.multi d)] =
      (some kk, (compare_features_advanced sim (some d) (some u)).2) := by
  have hm' : (profileResult sim u (StoredProfile.multi d)).1 = true := hm
  have hscore := profileResult_match_score sim u (StoredProfile.multi d) hm'
  have hfire : (profileResult sim u (StoredProfile.multi d)).1 = true ∧
      ((none, 0) : Option String × ℚ).2 <
        (profileResult sim u (StoredProfile.multi d)).2 := by
    refine ⟨hm', ?_⟩
    simp only []
    linarith
  show ([(kk, StoredProfile.multi d)]).foldl (scanStep sim u) (none, 0) = _
  rw [List.foldl_cons, List.foldl_nil]
  simp only [scanStep]
  rw [if_pos hfire]
  rfl

/-- Helper: the concrete one-profile gallery recognizes the probe image as
the enrolled identity "alice". -/
theorem recognize_stDup :
    recognize_user_enhanced detectU extractU simV stDup.pickles () = "alice" := by
  have hm : (compare_features_advanced simV (some tdV) (some Fin.elim0)).1 =
      true := cfa_const_one Fin.elim0 Fin.elim0 Fin.elim0
  show recognizeResult (scanGallery simV Fin.elim0 stDup.pickles).1 = "alice"
  rw [show stDup.pickles = [("alice", StoredProfile.multi tdV)] from rfl]
  rw [scanGallery_single_match simV Fin.elim0 "alice" tdV hm]
  rfl

/-- Witness for C1 at a concrete one-profile gallery. -/
theorem claim1_witness :
    (∃ e ∈ galleryUnit, (profileResult simUnit () e.2).1 = true) ∧
    (∃ kk p, (scanGallery simUnit () galleryUnit).1 = some kk ∧
      recognizeResult (scanGallery simUnit () galleryUnit).1 = kk ∧
      (kk, p) ∈ galleryUnit ∧ (profileResult simUnit () p).1 = true ∧
      (scanGallery simUnit () galleryUnit).2 = (profileResult simUnit () p).2 ∧
      (∀ e ∈ galleryUnit, (profileResult simUnit () e.2).1 = true →
        (profileResult simUnit () e.2).2 ≤ (scanGallery simUnit () galleryUnit).2)) := by
  have hkeys : ∀ e ∈ galleryUnit, e.1 ≠ "" := by decide
  have hex : ∃ e ∈ galleryUnit, (profileResult simUnit () e.2).1 = true :=
    ⟨("alice", StoredProfile.multi tdUnit), by simp [galleryUnit],
      cfa_const_one () () ()⟩
  exact ⟨hex, (claim1_gallery_scan_best_match simUnit () galleryUnit hkeys).2 hex⟩

/-- Witness for C3 at a concrete multi-photo profile. -/
theorem claim3_witness :
    ∃ m ∈ tdUnit.individual_features.map (fun f => simUnit f ()),
      (∀ x ∈ tdUnit.individual_features.map (fun f => simUnit f ()), x ≤ m) ∧
      (compare_features_advanced simUnit (some tdUnit) (some ())).2 =
        ((4 / 10) * simUnit tdUnit.ensemble_features () + (3 / 10) * m +
          (3 / 10) * ((tdUnit.individual_features.map (fun f => simUnit f ())).sum /
            ((tdUnit.individual_features.map (fun f => simUnit f ())).length : ℚ))) *
          min tdUnit.training_quality 1 :=
  claim3_advanced_score_formula simUnit tdUnit () (by decide)

/-- Witness for C4 at a concrete two-image enrollment. -/
theorem claim4_witness :
    2 ≤ (extractedFeatures detectU extractU [(), ()]).length ∧
    (extract_features_from_multiple_images detectU extractU [(), ()]).1 =
      some ⟨l2normalize (npMean (extractedFeatures detectU extractU [(), ()])),
        extractedFeatures detectU extractU [(), ()],
        (extractedFeatures detectU extractU [(), ()]).length,
        ((extractedFeatures detectU extractU [(), ()]).length : ℚ) /
          (([(), ()] : List Unit).length : ℚ)⟩ := by
  have h : 2 ≤ (extractedFeatures detectU extractU [(), ()]).length := by decide
  exact ⟨h, (claim4_aggregation_counts detectU extractU [(), ()]).2.2 h⟩

/-- Witness for C5: registering a second identity with a photo matching the
enrolled profile of "alice" is rejected with her display name, leaving the
state unchanged. -/
theorem claim5_witness :
    recognize_user_enhanced detectU extractU simV stDup.pickles () = "alice" ∧
    register detectU extractU simV true "newid" stDup reqTwo =
      (stDup, RegisterResult.errDuplicateFace "Alice") := by
  refine ⟨recognize_stDup, ?_⟩
  exact claim5_duplicate_face_guard detectU extractU simV true "newid" stDup
    reqTwo () [()] "alice" (by decide) (by decide) rfl recognize_stDup
    (by decide) (by decide)

/-- Witness for C6 at a concrete gallery of one corrupt entry followed by
one valid matching entry. -/
theorem claim6_witness :
    scanGallery simUnit () galleryUnit =
      scanGallery simUnit () (galleryUnit.filter (fun e => isLoadable e.2)) ∧
    recognizeResult (scanGallery simUnit ()
        [("bob", StoredProfile.corrupt),
          ("alice", StoredProfile.multi tdUnit)]).1 = "alice" :=
  claim6_corrupt_profile_skipped simUnit () galleryUnit "bob" "alice" tdUnit
    (by decide) (cfa_const_one () () ())

/-- Witness for C8 at a concrete pair of reordered image lists. -/
theorem claim8_witness :
    (Option.map TrainingData.ensemble_features
        (extract_features_from_multiple_images detectN extractU [0, 1]).1 =
      if 2 ≤ (extractedFeatures detectN extractU [0, 1]).length then
        some (l2normalize (npMean (extractedFeatures detectN extractU [0, 1])))
      else none) ∧
    Option.map TrainingData.ensemble_features
        (extract_features_from_multiple_images detectN extractU [0, 1]).1 =
      Option.map TrainingData.ensemble_features
        (extract_features_from_multiple_images detectN extractU [1, 0]).1 :=
  claim8_ensemble_mean_perm_invariant detectN extractU [0, 1] [1, 0] (by decide)

/-- Witness for C9 at a concrete two-region list. -/
theorem claim9_witness :
    selectLargestFace [faceSmall, faceBig] = some faceBig ∧
    (faceBig ∈ [faceSmall, faceBig] ∧
      ∀ g ∈ [faceSmall, faceBig], g.bbox.area ≤ faceBig.bbox.area) := by
  have hsel : selectLargestFace [faceSmall, faceBig] = some faceBig := by decide
  exact ⟨hsel, (claim9_largest_face_selection [faceSmall, faceBig]).2 faceBig hsel⟩

/-- Witness for C10: a registration over an empty gallery whose CSV write
fails reports failure and restores the initial state exactly. -/
theorem claim10_witness :
    2 ≤ (extractedFeatures detectU extractU [(), ()]).length ∧
    register detectU extractU simV false "newid" stEmpty reqTwo =
      (stEmpty, RegisterResult.errSaveFailed) := by
  have hvalid : 2 ≤ (extractedFeatures detectU extractU [(), ()]).length := by
    decide
  refine ⟨hvalid, ?_⟩
  exact claim10_cleanup_on_csv_failure detectU extractU simV "newid" stEmpty
    reqTwo () [()] (by decide) (by decide) rfl (fun h => h.2 rfl) hvalid
    (by decide) (by decide)
